import Mathlib

/-!
Verification of the platformatic/image-optimizer core against its design
specification.

The development shallowly embeds the repository's TypeScript core:

* `src/result-serde.ts` — the length-prefixed binary result codec
  (`queueResultSerde.serialize` / `queueResultSerde.deserialize`);
* `src/operations.ts` — `detectImageType`, `optimize` and
  `fetchAndOptimize`.

Byte buffers are modelled as `List Nat` (each element a byte value); the
optional strings of the result triple are modelled by their UTF-8 byte
sequences, so `Buffer.byteLength s` is the length of the modelled list.
Fallible operations return `Except String` with the exact message strings
of the source.
-/

namespace ImageOptimizer

/-! ## Result codec (`src/result-serde.ts`) -/

/-- The constant `UINT64_SIZE` of `result-serde.ts`. -/
def UINT64_SIZE : Nat := 8

/-- JavaScript's `Number.MAX_SAFE_INTEGER`, i.e. `2^53 - 1`. -/
def maxSafeInteger : Nat := 2 ^ 53 - 1

/-- The `Image<Buffer>` triple of `src/types.ts` as carried by the codec:
a mandatory byte buffer and two optional strings (modelled as their UTF-8
byte sequences; `none` models both the `undefined` and `null` cases). -/
structure Image where
  buffer : List Nat
  contentType : Option (List Nat)
  cacheControl : Option (List Nat)
deriving DecidableEq, Repr

/-- Big-endian 8-byte encoding of a length, as produced by
`Buffer.writeBigUInt64BE`. -/
def u64be (n : Nat) : List Nat :=
  [n / 256 ^ 7 % 256, n / 256 ^ 6 % 256, n / 256 ^ 5 % 256, n / 256 ^ 4 % 256,
   n / 256 ^ 3 % 256, n / 256 ^ 2 % 256, n / 256 % 256, n % 256]

/-- Recombination of big-endian bytes into a number, as performed by
`Buffer.readBigUInt64BE` on the 8 bytes at a given offset. -/
def beBytesToNat (bytes : List Nat) : Nat :=
  bytes.foldl (fun acc b => acc * 256 + b) 0

/-- Checked model of `raw.readBigUInt64BE(offset)`: `Buffer.readBigUInt64BE`
throws a range error when fewer than 8 bytes are available at `offset`, so
the model returns `none` there. -/
def readU64? (raw : List Nat) (offset : Nat) : Option Nat :=
  if offset + UINT64_SIZE ≤ raw.length then
    some (beBytesToNat ((raw.drop offset).take UINT64_SIZE))
  else
    none

/-- Message used by the model for an out-of-bounds `readBigUInt64BE`;
it is proved unreachable (`deserialize_total`), which is how the source's
bounds guards are verified. -/
def msgOutOfBounds : String := "attempt to read past the end of the buffer"

/-- Model of `queueResultSerde.serialize`.  The source computes
`contentTypeLength` as `Buffer.byteLength(value.contentType)` when the field
is non-null and `0` otherwise, allocates the exact total size, and writes the
three length-prefixed fields sequentially; a string field's bytes are written
only when the value is truthy, which coincides with appending
`value.contentType.getD []` because the written region has length 0 exactly
in the `null`/empty cases. -/
def serialize (value : Image) : List Nat :=
  let imageBuffer := value.buffer
  let contentTypeBytes := value.contentType.getD []
  let cacheControlBytes := value.cacheControl.getD []
  u64be imageBuffer.length ++ imageBuffer ++
    u64be contentTypeBytes.length ++ contentTypeBytes ++
    u64be cacheControlBytes.length ++ cacheControlBytes

/-- Continuation of `deserialize` after the content-type field has been
consumed, i.e. from `offset += UINT64_SIZE + contentTypeLength` onwards in
the source: the cache-control field (presence, magnitude and range checks,
extraction) followed by the trailing-bytes check and the final triple. -/
def deserializeRest (raw : List Nat) (offset : Nat) (buffer : List Nat)
    (contentType : Option (List Nat)) : Except String Image :=
  if offset + UINT64_SIZE > raw.length then
    .error "Invalid queue result payload: missing cache control length"
  else
    match readU64? raw offset with
    | none => .error msgOutOfBounds
    | some cacheControlLength =>
      if cacheControlLength > maxSafeInteger then
        .error "Invalid queue result payload: cache control length is too large"
      else
        if cacheControlLength > 0 then
          if offset + UINT64_SIZE + cacheControlLength > raw.length then
            .error "Invalid queue result payload: cache control length exceeds total buffer size"
          else
            if offset + UINT64_SIZE + cacheControlLength ≠ raw.length then
              .error "Invalid queue result payload: trailing bytes found"
            else
              .ok ⟨buffer, contentType, some ((raw.drop (offset + UINT64_SIZE)).take cacheControlLength)⟩
        else
          if offset + UINT64_SIZE ≠ raw.length then
            .error "Invalid queue result payload: trailing bytes found"
          else
            .ok ⟨buffer, contentType, none⟩

/-- Model of `queueResultSerde.deserialize`: image-buffer field, then
content-type field, then (via `deserializeRest`) the cache-control field and
the trailing-bytes check, each field validated by the presence, magnitude
and range checks of the source in that order. -/
def deserialize (raw : List Nat) : Except String Image :=
  if UINT64_SIZE > raw.length then
    .error "Invalid queue result payload: missing image buffer length"
  else
    match readU64? raw 0 with
    | none => .error msgOutOfBounds
    | some bufferLength =>
      if bufferLength > maxSafeInteger then
        .error "Invalid queue result payload: image buffer length is too large"
      else
        if UINT64_SIZE + bufferLength > raw.length then
          .error "Invalid queue result payload: image buffer length exceeds total buffer size"
        else
          if UINT64_SIZE + bufferLength + UINT64_SIZE > raw.length then
            .error "Invalid queue result payload: missing content type length"
          else
            match readU64? raw (UINT64_SIZE + bufferLength) with
            | none => .error msgOutOfBounds
            | some contentTypeLength =>
              if contentTypeLength > maxSafeInteger then
                .error "Invalid queue result payload: content type length is too large"
              else
                if contentTypeLength > 0 then
                  if UINT64_SIZE + bufferLength + UINT64_SIZE + contentTypeLength > raw.length then
                    .error "Invalid queue result payload: content type length exceeds total buffer size"
                  else
                    deserializeRest raw (UINT64_SIZE + bufferLength + UINT64_SIZE + contentTypeLength)
                      ((raw.drop UINT64_SIZE).take bufferLength)
                      (some ((raw.drop (UINT64_SIZE + bufferLength + UINT64_SIZE)).take contentTypeLength))
                else
                  deserializeRest raw (UINT64_SIZE + bufferLength + UINT64_SIZE)
                    ((raw.drop UINT64_SIZE).take bufferLength) none

/-- The ten `MalformedPayload` reason strings that `deserialize` can raise,
in source order. -/
def malformedReasons : List String :=
  ["Invalid queue result payload: missing image buffer length",
   "Invalid queue result payload: image buffer length is too large",
   "Invalid queue result payload: image buffer length exceeds total buffer size",
   "Invalid queue result payload: missing content type length",
   "Invalid queue result payload: content type length is too large",
   "Invalid queue result payload: content type length exceeds total buffer size",
   "Invalid queue result payload: missing cache control length",
   "Invalid queue result payload: cache control length is too large",
   "Invalid queue result payload: cache control length exceeds total buffer size",
   "Invalid queue result payload: trailing bytes found"]

/-! ### Basic codec lemmas -/

theorem u64be_length (n : Nat) : (u64be n).length = 8 := rfl

theorem beBytesToNat_u64be (n : Nat) (h : n < 18446744073709551616) :
    beBytesToNat (u64be n) = n := by
  simp only [u64be, beBytesToNat, List.foldl]
  norm_num
  omega

/-- Reading 8 bytes at the position right after a known prefix recovers the
number written there in big-endian form. -/
theorem readU64?_at (raw pre rest : List Nat) (n k : Nat)
    (hn : n < 18446744073709551616) (hraw : raw = pre ++ (u64be n ++ rest))
    (hk : k = pre.length) : readU64? raw k = some n := by
  subst hraw hk
  unfold readU64?
  rw [if_pos]
  · rw [List.drop_left]
    rw [show UINT64_SIZE = (u64be n).length from rfl, List.take_left, beBytesToNat_u64be n hn]
  · simp [UINT64_SIZE, u64be]

/-- Extracting `mid.length` bytes at the position right after a known prefix
recovers `mid`. -/
theorem extract_at (raw pre mid rest : List Nat) (k n : Nat)
    (hraw : raw = pre ++ (mid ++ rest)) (hk : k = pre.length) (hn : n = mid.length) :
    (raw.drop k).take n = mid := by
  subst hraw hk hn
  rw [List.drop_left, List.take_left]

/-- A successful 8-byte read implies the 8 bytes were in range. -/
theorem readU64?_some_bound (raw : List Nat) (k n : Nat)
    (h : readU64? raw k = some n) : k + 8 ≤ raw.length := by
  unfold readU64? at h
  by_cases hk : k + UINT64_SIZE ≤ raw.length
  · simpa [UINT64_SIZE] using hk
  · rw [if_neg hk] at h
    exact absurd h (by simp)

/-- A failed 8-byte read means fewer than 8 bytes were available. -/
theorem readU64?_eq_none (raw : List Nat) (k : Nat)
    (h : readU64? raw k = none) : raw.length < k + 8 := by
  unfold readU64? at h
  by_cases hk : k + UINT64_SIZE ≤ raw.length
  · rw [if_pos hk] at h
    exact absurd h (by simp)
  · simp [UINT64_SIZE] at hk
    omega

/-- Inversion of a successful cache-control-and-trailing stage: the buffer
and content type are passed through, and the cache-control field is either
an absent field ending the input exactly at `offset + 8`, or a non-empty
extracted slice ending the input exactly at its end. -/
theorem deserializeRest_ok_inv (raw : List Nat) (offset : Nat) (buffer : List Nat)
    (contentType : Option (List Nat)) (r : Image)
    (h : deserializeRest raw offset buffer contentType = .ok r) :
    r.buffer = buffer ∧ r.contentType = contentType ∧
      ((r.cacheControl = none ∧ offset + 8 = raw.length) ∨
        (∃ n, 0 < n ∧ offset + 8 + n = raw.length ∧
          r.cacheControl = some ((raw.drop (offset + 8)).take n))) := by
  unfold deserializeRest at h
  rw [show UINT64_SIZE = 8 from rfl] at h
  by_cases c1 : offset + 8 > raw.length
  · rw [if_pos c1] at h
    exact Except.noConfusion h
  rw [if_neg c1] at h
  rcases hr : readU64? raw offset with _ | n
  · rw [hr] at h
    exact Except.noConfusion h
  rw [hr] at h
  simp only [] at h
  by_cases c2 : n > maxSafeInteger
  · rw [if_pos c2] at h
    exact Except.noConfusion h
  rw [if_neg c2] at h
  by_cases c3 : n > 0
  · rw [if_pos c3] at h
    by_cases c4 : offset + 8 + n > raw.length
    · rw [if_pos c4] at h
      exact Except.noConfusion h
    rw [if_neg c4] at h
    by_cases c5 : offset + 8 + n ≠ raw.length
    · rw [if_pos c5] at h
      exact Except.noConfusion h
    rw [if_neg c5] at h
    injection h with h2
    subst h2
    exact ⟨rfl, rfl, Or.inr ⟨n, c3, by omega, rfl⟩⟩
  · rw [if_neg c3] at h
    by_cases c5 : offset + 8 ≠ raw.length
    · rw [if_pos c5] at h
      exact Except.noConfusion h
    rw [if_neg c5] at h
    injection h with h2
    subst h2
    exact ⟨rfl, rfl, Or.inl ⟨rfl, by omega⟩⟩

/-- Any error of the cache-control-and-trailing stage is one of the
enumerated malformed-payload reasons: the out-of-bounds branch of the
checked read is unreachable because the presence check guards it. -/
theorem deserializeRest_error_mem (raw : List Nat) (offset : Nat) (buffer : List Nat)
    (contentType : Option (List Nat)) (m : String)
    (h : deserializeRest raw offset buffer contentType = .error m) :
    m ∈ malformedReasons := by
  unfold deserializeRest at h
  rw [show UINT64_SIZE = 8 from rfl] at h
  by_cases c1 : offset + 8 > raw.length
  · rw [if_pos c1] at h
    injection h with h2
    subst h2
    decide
  rw [if_neg c1] at h
  rcases hr : readU64? raw offset with _ | n
  · exact absurd (readU64?_eq_none _ _ hr) (by omega)
  rw [hr] at h
  simp only [] at h
  by_cases c2 : n > maxSafeInteger
  · rw [if_pos c2] at h
    injection h with h2
    subst h2
    decide
  rw [if_neg c2] at h
  by_cases c3 : n > 0
  · rw [if_pos c3] at h
    by_cases c4 : offset + 8 + n > raw.length
    · rw [if_pos c4] at h
      injection h with h2
      subst h2
      decide
    rw [if_neg c4] at h
    by_cases c5 : offset + 8 + n ≠ raw.length
    · rw [if_pos c5] at h
      injection h with h2
      subst h2
      decide
    · rw [if_neg c5] at h
      exact Except.noConfusion h
  · rw [if_neg c3] at h
    by_cases c5 : offset + 8 ≠ raw.length
    · rw [if_pos c5] at h
      injection h with h2
      subst h2
      decide
    · rw [if_neg c5] at h
      exact Except.noConfusion h

/-- Inversion of a successful decode: the input was consumed exactly (its
length is the 24 prefix bytes plus the three field lengths), and a decoded
string field is never present-but-empty. -/
theorem deserialize_ok_inv (raw : List Nat) (r : Image)
    (h : deserialize raw = .ok r) :
    raw.length = 24 + r.buffer.length + (r.contentType.getD []).length +
        (r.cacheControl.getD []).length ∧
      (∀ s, r.contentType = some s → 0 < s.length) ∧
      (∀ s, r.cacheControl = some s → 0 < s.length) := by
  unfold deserialize at h
  rw [show UINT64_SIZE = 8 from rfl] at h
  by_cases c1 : 8 > raw.length
  · rw [if_pos c1] at h
    exact Except.noConfusion h
  rw [if_neg c1] at h
  rcases hr0 : readU64? raw 0 with _ | n1
  · rw [hr0] at h
    exact Except.noConfusion h
  rw [hr0] at h
  simp only [] at h
  by_cases c2 : n1 > maxSafeInteger
  · rw [if_pos c2] at h
    exact Except.noConfusion h
  rw [if_neg c2] at h
  by_cases c3 : 8 + n1 > raw.length
  · rw [if_pos c3] at h
    exact Except.noConfusion h
  rw [if_neg c3] at h
  by_cases c4 : 8 + n1 + 8 > raw.length
  · rw [if_pos c4] at h
    exact Except.noConfusion h
  rw [if_neg c4] at h
  rcases hr1 : readU64? raw (8 + n1) with _ | n2
  · rw [hr1] at h
    exact Except.noConfusion h
  rw [hr1] at h
  simp only [] at h
  by_cases c5 : n2 > maxSafeInteger
  · rw [if_pos c5] at h
    exact Except.noConfusion h
  rw [if_neg c5] at h
  by_cases c6 : n2 > 0
  · rw [if_pos c6] at h
    by_cases c7 : 8 + n1 + 8 + n2 > raw.length
    · rw [if_pos c7] at h
      exact Except.noConfusion h
    rw [if_neg c7] at h
    obtain ⟨hb, hct, hcc⟩ := deserializeRest_ok_inv _ _ _ _ _ h
    rcases hcc with ⟨hccn, hlen⟩ | ⟨n3, hn3, hlen, hccs⟩ <;>
      refine ⟨?_, fun s hs => ?_, fun s hs => ?_⟩ <;>
      simp_all [List.length_take, List.length_drop] <;>
      omega
  · rw [if_neg c6] at h
    obtain ⟨hb, hct, hcc⟩ := deserializeRest_ok_inv _ _ _ _ _ h
    rcases hcc with ⟨hccn, hlen⟩ | ⟨n3, hn3, hlen, hccs⟩ <;>
      refine ⟨?_, fun s hs => ?_, fun s hs => ?_⟩ <;>
      simp_all [List.length_take, List.length_drop] <;>
      omega

/-- Every error that `deserialize` can raise is one of the ten enumerated
malformed-payload reasons; in particular the out-of-bounds branches of the
checked reads are unreachable. -/
theorem deserialize_error_mem (raw : List Nat) (m : String)
    (h : deserialize raw = .error m) : m ∈ malformedReasons := by
  unfold deserialize at h
  rw [show UINT64_SIZE = 8 from rfl] at h
  by_cases c1 : 8 > raw.length
  · rw [if_pos c1] at h
    injection h with h2
    subst h2
    decide
  rw [if_neg c1] at h
  rcases hr0 : readU64? raw 0 with _ | n1
  · exact absurd (readU64?_eq_none _ _ hr0) (by omega)
  rw [hr0] at h
  simp only [] at h
  by_cases c2 : n1 > maxSafeInteger
  · rw [if_pos c2] at h
    injection h with h2
    subst h2
    decide
  rw [if_neg c2] at h
  by_cases c3 : 8 + n1 > raw.length
  · rw [if_pos c3] at h
    injection h with h2
    subst h2
    decide
  rw [if_neg c3] at h
  by_cases c4 : 8 + n1 + 8 > raw.length
  · rw [if_pos c4] at h
    injection h with h2
    subst h2
    decide
  rw [if_neg c4] at h
  rcases hr1 : readU64? raw (8 + n1) with _ | n2
  · exact absurd (readU64?_eq_none _ _ hr1) (by omega)
  rw [hr1] at h
  simp only [] at h
  by_cases c5 : n2 > maxSafeInteger
  · rw [if_pos c5] at h
    injection h with h2
    subst h2
    decide
  rw [if_neg c5] at h
  by_cases c6 : n2 > 0
  · rw [if_pos c6] at h
    by_cases c7 : 8 + n1 + 8 + n2 > raw.length
    · rw [if_pos c7] at h
      injection h with h2
      subst h2
      decide
    rw [if_neg c7] at h
    exact deserializeRest_error_mem _ _ _ _ _ h
  · rw [if_neg c6] at h
    exact deserializeRest_error_mem _ _ _ _ _ h

/-- Evaluation of `deserialize` on a well-formed wire image followed by an
arbitrary suffix: with no suffix it succeeds (zero-length string fields
decoding to `none`), and any non-empty suffix trips the trailing-bytes
check.  This single lemma drives the round-trip, empty-string and
trailing-bytes results. -/
theorem deserialize_wire (a b c extra : List Nat)
    (ha : a.length ≤ maxSafeInteger) (hb : b.length ≤ maxSafeInteger)
    (hc : c.length ≤ maxSafeInteger) :
    deserialize (u64be a.length ++ (a ++ (u64be b.length ++ (b ++ (u64be c.length ++ (c ++ extra)))))) =
      if extra.length = 0 then
        .ok ⟨a, if b.length > 0 then some b else none, if c.length > 0 then some c else none⟩
      else
        .error "Invalid queue result payload: trailing bytes found" := by
  unfold maxSafeInteger at ha hb hc
  set R : List Nat :=
    u64be a.length ++ (a ++ (u64be b.length ++ (b ++ (u64be c.length ++ (c ++ extra))))) with hR
  have hL : R.length = 24 + a.length + b.length + c.length + extra.length := by
    rw [hR]; simp [u64be]; omega
  have h64a : a.length < 18446744073709551616 := by omega
  have h64b : b.length < 18446744073709551616 := by omega
  have h64c : c.length < 18446744073709551616 := by omega
  have r0 : readU64? R 0 = some a.length :=
    readU64?_at R [] (a ++ (u64be b.length ++ (b ++ (u64be c.length ++ (c ++ extra)))))
      a.length 0 h64a (by rw [hR]; rfl) rfl
  have r1 : readU64? R (8 + a.length) = some b.length :=
    readU64?_at R (u64be a.length ++ a) (b ++ (u64be c.length ++ (c ++ extra)))
      b.length (8 + a.length) h64b (by rw [hR]; simp)
      (by rw [List.length_append, u64be_length])
  have r2 : readU64? R (8 + a.length + 8 + b.length) = some c.length :=
    readU64?_at R (u64be a.length ++ a ++ u64be b.length ++ b) (c ++ extra)
      c.length (8 + a.length + 8 + b.length) h64c (by rw [hR]; simp)
      (by rw [List.length_append, List.length_append, List.length_append,
        u64be_length, u64be_length])
  have ea : (R.drop 8).take a.length = a :=
    extract_at R (u64be a.length) a (u64be b.length ++ (b ++ (u64be c.length ++ (c ++ extra))))
      8 a.length (by rw [hR]) rfl rfl
  have eb : (R.drop (8 + a.length + 8)).take b.length = b :=
    extract_at R (u64be a.length ++ a ++ u64be b.length) b (u64be c.length ++ (c ++ extra))
      (8 + a.length + 8) b.length (by rw [hR]; simp)
      (by rw [List.length_append, List.length_append, u64be_length, u64be_length]) rfl
  have ec : (R.drop (8 + a.length + 8 + b.length + 8)).take c.length = c :=
    extract_at R (u64be a.length ++ a ++ u64be b.length ++ b ++ u64be c.length) c extra
      (8 + a.length + 8 + b.length + 8) c.length (by rw [hR]; simp)
      (by rw [List.length_append, List.length_append, List.length_append,
        List.length_append, u64be_length, u64be_length, u64be_length]) rfl
  unfold deserialize deserializeRest
  simp only [UINT64_SIZE, maxSafeInteger]
  rw [if_neg (by omega)]
  rw [r0]
  simp only []
  rw [if_neg (by omega), if_neg (by omega), if_neg (by omega)]
  rw [r1]
  simp only []
  rw [if_neg (by omega)]
  by_cases hb0 : b.length > 0
  · rw [if_pos hb0, if_neg (by omega), ea, eb]
    rw [if_neg (by omega), r2]
    simp only []
    rw [if_neg (by omega)]
    by_cases hc0 : c.length > 0
    · rw [if_pos hc0, if_neg (by omega), ec]
      by_cases he : extra.length = 0
      · rw [if_neg (by omega), if_pos he, if_pos hb0, if_pos hc0]
      · rw [if_pos (by omega), if_neg he]
    · rw [if_neg hc0]
      by_cases he : extra.length = 0
      · rw [if_neg (by omega), if_pos he, if_pos hb0, if_neg hc0]
      · rw [if_pos (by omega), if_neg he]
  · rw [if_neg hb0, ea]
    have hb0' : b.length = 0 := by omega
    have hbnil : b = [] := List.length_eq_zero.mp hb0'
    rw [if_neg (by omega)]
    rw [show readU64? R (8 + a.length + 8) = some c.length from by
      have := r2; rwa [hb0', Nat.add_zero] at this]
    simp only []
    rw [if_neg (by omega)]
    by_cases hc0 : c.length > 0
    · rw [if_pos hc0, if_neg (by omega)]
      rw [show (R.drop (8 + a.length + 8 + 8)).take c.length = c from by
        have := ec; rwa [hb0', Nat.add_zero] at this]
      by_cases he : extra.length = 0
      · rw [if_neg (by omega), if_pos he, if_neg hb0, if_pos hc0]
      · rw [if_pos (by omega), if_neg he]
    · rw [if_neg hc0]
      by_cases he : extra.length = 0
      · rw [if_neg (by omega), if_pos he, if_neg hb0, if_neg hc0]
      · rw [if_pos (by omega), if_neg he]

/-- The serialized blob, reassociated to the nested-append shape used by
`deserialize_wire`. -/
theorem serialize_eq_wire (x : Image) :
    serialize x =
      u64be x.buffer.length ++ (x.buffer ++ (u64be (x.contentType.getD []).length ++
        ((x.contentType.getD []) ++ (u64be (x.cacheControl.getD []).length ++
          ((x.cacheControl.getD []) ++ []))))) := by
  simp [serialize, List.append_assoc]

/-- C1: for every `OptimizationResult` whose optional string fields are each
absent or non-empty and whose field lengths are representable (at most
`Number.MAX_SAFE_INTEGER`, as any real buffer length is), deserializing the
serialized blob returns exactly the original triple — including the case of
an empty image buffer with both strings absent. -/
theorem deserialize_serialize_roundtrip (x : Image)
    (hct : x.contentType = none ∨ ∃ s, x.contentType = some s ∧ s ≠ [])
    (hcc : x.cacheControl = none ∨ ∃ s, x.cacheControl = some s ∧ s ≠ [])
    (hbuf : x.buffer.length ≤ maxSafeInteger)
    (hctl : (x.contentType.getD []).length ≤ maxSafeInteger)
    (hccl : (x.cacheControl.getD []).length ≤ maxSafeInteger) :
    deserialize (serialize x) = .ok x := by
  obtain ⟨buffer, contentType, cacheControl⟩ := x
  rw [serialize_eq_wire]
  rw [deserialize_wire _ _ _ [] hbuf hctl hccl]
  rw [if_pos (by simp)]
  rcases hct with hct | ⟨s, hs, hsne⟩ <;> rcases hcc with hcc | ⟨t, ht, htne⟩ <;>
    simp_all [List.length_pos]

/-- Witness for C1 at a concrete triple with a present content type, an
absent cache control and a non-empty image buffer. -/
theorem deserialize_serialize_roundtrip_witness :
    deserialize (serialize ⟨[1, 2, 3], some [97], none⟩) = .ok ⟨[1, 2, 3], some [97], none⟩ :=
  deserialize_serialize_roundtrip ⟨[1, 2, 3], some [97], none⟩
    (Or.inr ⟨[97], rfl, by decide⟩) (Or.inl rfl) (by decide) (by decide) (by decide)

/-- The serialized blob followed by a suffix, reassociated to the
nested-append shape used by `deserialize_wire`. -/
theorem serialize_append_eq_wire (x : Image) (extra : List Nat) :
    serialize x ++ extra =
      u64be x.buffer.length ++ (x.buffer ++ (u64be (x.contentType.getD []).length ++
        ((x.contentType.getD []) ++ (u64be (x.cacheControl.getD []).length ++
          ((x.cacheControl.getD []) ++ extra))))) := by
  simp [serialize, List.append_assoc]

/-- C8: an absent optional string encodes as a zero length prefix with zero
content bytes; an empty string field serializes identically to an absent
one; deserializing never yields a present-but-empty string field; and the
blob of a result with empty string fields decodes with both fields absent. -/
theorem absent_and_empty_string_fields :
    (∀ buffer : List Nat, serialize ⟨buffer, none, none⟩ =
        u64be buffer.length ++ buffer ++ u64be 0 ++ u64be 0) ∧
    (∀ (buffer : List Nat) (ct cc : Option (List Nat)),
        serialize ⟨buffer, some [], cc⟩ = serialize ⟨buffer, none, cc⟩ ∧
        serialize ⟨buffer, ct, some []⟩ = serialize ⟨buffer, ct, none⟩) ∧
    (∀ (raw : List Nat) (r : Image), deserialize raw = .ok r →
        r.contentType ≠ some [] ∧ r.cacheControl ≠ some []) ∧
    (∀ buffer : List Nat, buffer.length ≤ maxSafeInteger →
        deserialize (serialize ⟨buffer, some [], some []⟩) = .ok ⟨buffer, none, none⟩) := by
  refine ⟨fun buffer => by simp [serialize], fun buffer ct cc => ⟨rfl, rfl⟩,
    fun raw r h => ?_, fun buffer hlen => ?_⟩
  · obtain ⟨-, hct, hcc⟩ := deserialize_ok_inv raw r h
    constructor
    · intro hs
      exact absurd (hct [] hs) (by simp)
    · intro hs
      exact absurd (hcc [] hs) (by simp)
  · have hw := deserialize_wire buffer [] [] [] hlen (by simp [maxSafeInteger])
      (by simp [maxSafeInteger])
    simpa [serialize, List.append_assoc] using hw

/-- Witness for C8 at a concrete buffer: a result with empty-string fields
decodes with both fields absent. -/
theorem absent_and_empty_string_fields_witness :
    deserialize (serialize ⟨[5], some [], some []⟩) = .ok ⟨[5], none, none⟩ :=
  absent_and_empty_string_fields.2.2.2 [5] (by decide)

/-- C9: a successful decode consumes the input exactly (its length is the
24 prefix bytes plus the three field lengths), and appending any non-empty
suffix to a well-formed blob makes decoding fail with the trailing-bytes
reason. -/
theorem trailing_bytes_rejected :
    (∀ (raw : List Nat) (r : Image), deserialize raw = .ok r →
        raw.length = 24 + r.buffer.length + (r.contentType.getD []).length +
          (r.cacheControl.getD []).length) ∧
    (∀ (x : Image) (extra : List Nat),
        x.buffer.length ≤ maxSafeInteger →
        (x.contentType.getD []).length ≤ maxSafeInteger →
        (x.cacheControl.getD []).length ≤ maxSafeInteger →
        extra ≠ [] →
        deserialize (serialize x ++ extra) =
          .error "Invalid queue result payload: trailing bytes found") := by
  refine ⟨fun raw r h => (deserialize_ok_inv raw r h).1,
    fun x extra h1 h2 h3 hne => ?_⟩
  rw [serialize_append_eq_wire]
  rw [deserialize_wire _ _ _ extra h1 h2 h3]
  rw [if_neg]
  intro hlen
  exact hne (List.length_eq_zero.mp hlen)

/-- Witness for C9: the empty result's blob with one extra byte fails with
exactly the trailing-bytes reason. -/
theorem trailing_bytes_rejected_witness :
    deserialize (serialize ⟨[], none, none⟩ ++ [0]) =
      .error "Invalid queue result payload: trailing bytes found" :=
  trailing_bytes_rejected.2 ⟨[], none, none⟩ [0] (by decide) (by decide) (by decide)
    (by decide)

/-! ### Staged evaluation of the decoder, for the per-field validation -/

/-- Evaluation of `deserialize` up to the content-type field, once the
image-buffer field has passed all three of its checks. -/
theorem deserialize_ct_stage (raw : List Nat) (n1 : Nat)
    (h0 : readU64? raw 0 = some n1) (h1 : n1 ≤ maxSafeInteger)
    (_h2 : 8 + n1 ≤ raw.length) (h3 : 8 + n1 + 8 ≤ raw.length) :
    deserialize raw =
      match readU64? raw (8 + n1) with
      | none => .error msgOutOfBounds
      | some contentTypeLength =>
        if contentTypeLength > maxSafeInteger then
          .error "Invalid queue result payload: content type length is too large"
        else
          if contentTypeLength > 0 then
            if 8 + n1 + 8 + contentTypeLength > raw.length then
              .error "Invalid queue result payload: content type length exceeds total buffer size"
            else
              deserializeRest raw (8 + n1 + 8 + contentTypeLength)
                ((raw.drop 8).take n1)
                (some ((raw.drop (8 + n1 + 8)).take contentTypeLength))
          else
            deserializeRest raw (8 + n1 + 8) ((raw.drop 8).take n1) none := by
  have hp := readU64?_some_bound _ _ _ h0
  unfold deserialize
  rw [show UINT64_SIZE = 8 from rfl]
  rw [if_neg (by omega)]
  rw [h0]
  simp only []
  rw [if_neg (by omega), if_neg (by omega), if_neg (by omega)]

/-- Evaluation of `deserialize` up to the cache-control stage, once the
image-buffer and content-type fields have passed all their checks. -/
theorem deserialize_cc_stage (raw : List Nat) (n1 n2 : Nat)
    (h0 : readU64? raw 0 = some n1) (h1 : n1 ≤ maxSafeInteger)
    (h2 : 8 + n1 ≤ raw.length) (h3 : 8 + n1 + 8 ≤ raw.length)
    (h4 : readU64? raw (8 + n1) = some n2) (h5 : n2 ≤ maxSafeInteger)
    (h6 : 8 + n1 + 8 + n2 ≤ raw.length) :
    deserialize raw =
      deserializeRest raw (8 + n1 + 8 + n2) ((raw.drop 8).take n1)
        (if 0 < n2 then some ((raw.drop (8 + n1 + 8)).take n2) else none) := by
  rw [deserialize_ct_stage raw n1 h0 h1 h2 h3]
  rw [h4]
  simp only []
  rw [if_neg (by omega)]
  by_cases c : n2 > 0
  · rw [if_pos c, if_neg (by omega), if_pos c]
  · have hz : n2 = 0 := by omega
    subst hz
    rw [if_neg c, if_neg c, Nat.add_zero]

/-- C2: each of the three fields is validated in order by a three-step
check — presence of the 8-byte length prefix, magnitude bound against the
maximum safe integer, and range bound against the end of the input — and
the first violated check fails the whole decode with that field's specific
reason string, with no partial recovery. -/
theorem deserialize_three_step_validation (raw : List Nat) :
    (raw.length < 8 →
      deserialize raw = .error "Invalid queue result payload: missing image buffer length") ∧
    (∀ n1, readU64? raw 0 = some n1 → maxSafeInteger < n1 →
      deserialize raw = .error "Invalid queue result payload: image buffer length is too large") ∧
    (∀ n1, readU64? raw 0 = some n1 → n1 ≤ maxSafeInteger → raw.length < 8 + n1 →
      deserialize raw = .error "Invalid queue result payload: image buffer length exceeds total buffer size") ∧
    (∀ n1, readU64? raw 0 = some n1 → n1 ≤ maxSafeInteger → 8 + n1 ≤ raw.length →
      raw.length < 8 + n1 + 8 →
      deserialize raw = .error "Invalid queue result payload: missing content type length") ∧
    (∀ n1 n2, readU64? raw 0 = some n1 → n1 ≤ maxSafeInteger → 8 + n1 ≤ raw.length →
      8 + n1 + 8 ≤ raw.length → readU64? raw (8 + n1) = some n2 → maxSafeInteger < n2 →
      deserialize raw = .error "Invalid queue result payload: content type length is too large") ∧
    (∀ n1 n2, readU64? raw 0 = some n1 → n1 ≤ maxSafeInteger → 8 + n1 ≤ raw.length →
      8 + n1 + 8 ≤ raw.length → readU64? raw (8 + n1) = some n2 → n2 ≤ maxSafeInteger →
      0 < n2 → raw.length < 8 + n1 + 8 + n2 →
      deserialize raw = .error "Invalid queue result payload: content type length exceeds total buffer size") ∧
    (∀ n1 n2, readU64? raw 0 = some n1 → n1 ≤ maxSafeInteger → 8 + n1 ≤ raw.length →
      8 + n1 + 8 ≤ raw.length → readU64? raw (8 + n1) = some n2 → n2 ≤ maxSafeInteger →
      8 + n1 + 8 + n2 ≤ raw.length → raw.length < 8 + n1 + 8 + n2 + 8 →
      deserialize raw = .error "Invalid queue result payload: missing cache control length") ∧
    (∀ n1 n2 n3, readU64? raw 0 = some n1 → n1 ≤ maxSafeInteger → 8 + n1 ≤ raw.length →
      8 + n1 + 8 ≤ raw.length → readU64? raw (8 + n1) = some n2 → n2 ≤ maxSafeInteger →
      8 + n1 + 8 + n2 ≤ raw.length → readU64? raw (8 + n1 + 8 + n2) = some n3 →
      maxSafeInteger < n3 →
      deserialize raw = .error "Invalid queue result payload: cache control length is too large") ∧
    (∀ n1 n2 n3, readU64? raw 0 = some n1 → n1 ≤ maxSafeInteger → 8 + n1 ≤ raw.length →
      8 + n1 + 8 ≤ raw.length → readU64? raw (8 + n1) = some n2 → n2 ≤ maxSafeInteger →
      8 + n1 + 8 + n2 ≤ raw.length → readU64? raw (8 + n1 + 8 + n2) = some n3 →
      n3 ≤ maxSafeInteger → 0 < n3 → raw.length < 8 + n1 + 8 + n2 + 8 + n3 →
      deserialize raw = .error "Invalid queue result payload: cache control length exceeds total buffer size") := by
  refine ⟨fun hlen => ?_, fun n1 h0 hbig => ?_, fun n1 h0 h1 hlen => ?_,
    fun n1 h0 h1 h2 hlen => ?_, fun n1 n2 h0 h1 h2 h3 h4 hbig => ?_,
    fun n1 n2 h0 h1 h2 h3 h4 h5 hpos hlen => ?_,
    fun n1 n2 h0 h1 h2 h3 h4 h5 h6 hlen => ?_,
    fun n1 n2 n3 h0 h1 h2 h3 h4 h5 h6 h7 hbig => ?_,
    fun n1 n2 n3 h0 h1 h2 h3 h4 h5 h6 h7 h8 hpos hlen => ?_⟩
  · unfold deserialize
    rw [show UINT64_SIZE = 8 from rfl, if_pos (by omega)]
  · have hp := readU64?_some_bound _ _ _ h0
    unfold deserialize
    rw [show UINT64_SIZE = 8 from rfl, if_neg (by omega), h0]
    simp only []
    rw [if_pos (by omega)]
  · have hp := readU64?_some_bound _ _ _ h0
    unfold deserialize
    rw [show UINT64_SIZE = 8 from rfl, if_neg (by omega), h0]
    simp only []
    rw [if_neg (by omega), if_pos (by omega)]
  · have hp := readU64?_some_bound _ _ _ h0
    unfold deserialize
    rw [show UINT64_SIZE = 8 from rfl, if_neg (by omega), h0]
    simp only []
    rw [if_neg (by omega), if_neg (by omega), if_pos (by omega)]
  · rw [deserialize_ct_stage raw n1 h0 h1 h2 h3, h4]
    simp only []
    rw [if_pos (by omega)]
  · rw [deserialize_ct_stage raw n1 h0 h1 h2 h3, h4]
    simp only []
    rw [if_neg (by omega), if_pos hpos, if_pos (by omega)]
  · rw [deserialize_cc_stage raw n1 n2 h0 h1 h2 h3 h4 h5 h6]
    unfold deserializeRest
    rw [show UINT64_SIZE = 8 from rfl, if_pos (by omega)]
  · have hp := readU64?_some_bound _ _ _ h7
    rw [deserialize_cc_stage raw n1 n2 h0 h1 h2 h3 h4 h5 h6]
    unfold deserializeRest
    rw [show UINT64_SIZE = 8 from rfl, if_neg (by omega), h7]
    simp only []
    rw [if_pos (by omega)]
  · have hp := readU64?_some_bound _ _ _ h7
    rw [deserialize_cc_stage raw n1 n2 h0 h1 h2 h3 h4 h5 h6]
    unfold deserializeRest
    rw [show UINT64_SIZE = 8 from rfl, if_neg (by omega), h7]
    simp only []
    rw [if_neg (by omega), if_pos hpos, if_pos (by omega)]

/-- Witness for C2: the empty input fails the first presence check with the
missing-image-buffer-length reason. -/
theorem deserialize_three_step_validation_witness :
    deserialize [] = .error "Invalid queue result payload: missing image buffer length" :=
  (deserialize_three_step_validation []).1 (by decide)

/-- Amended C10 (totality and guarded reads): decoding any input either
succeeds or fails with one of the ten enumerated malformed-payload reasons,
and the out-of-bounds branch of the checked 8-byte reads is never taken. -/
theorem deserialize_total (raw : List Nat) :
    ((∃ r, deserialize raw = .ok r) ∨
      ∃ m, m ∈ malformedReasons ∧ deserialize raw = .error m) ∧
    deserialize raw ≠ .error msgOutOfBounds := by
  constructor
  · cases hd : deserialize raw with
    | error m => exact Or.inr ⟨m, deserialize_error_mem raw m hd, rfl⟩
    | ok r => exact Or.inl ⟨r, rfl⟩
  · intro hd
    have hm := deserialize_error_mem raw _ hd
    revert hm
    decide

/-- Witness for C10's amended theorem at the empty input. -/
theorem deserialize_total_witness :
    ∃ m, m ∈ malformedReasons ∧ deserialize [] = .error m := by
  rcases (deserialize_total []).1 with ⟨r, hr⟩ | h
  · rw [show deserialize ([] : List Nat) =
      .error "Invalid queue result payload: missing image buffer length" from rfl] at hr
    exact Except.noConfusion hr
  · exact h

/-- Counterexample for C10 as stated: `deserialize` realises ten pairwise
distinct malformed-payload reasons on ten concrete inputs, so its errors
cannot all lie in a set of nine reasons. -/
theorem deserialize_ten_reasons_counterexample :
    [deserialize [],
     deserialize [0, 32, 0, 0, 0, 0, 0, 0],
     deserialize [0, 0, 0, 0, 0, 0, 0, 1],
     deserialize [0, 0, 0, 0, 0, 0, 0, 0],
     deserialize [0, 0, 0, 0, 0, 0, 0, 0, 0, 32, 0, 0, 0, 0, 0, 0],
     deserialize [0, 0, 0, 0, 0, 0, 0, 0, 0, 0, 0, 0, 0, 0, 0, 1],
     deserialize [0, 0, 0, 0, 0, 0, 0, 0, 0, 0, 0, 0, 0, 0, 0, 0],
     deserialize [0, 0, 0, 0, 0, 0, 0, 0, 0, 0, 0, 0, 0, 0, 0, 0, 0, 32, 0, 0, 0, 0, 0, 0],
     deserialize [0, 0, 0, 0, 0, 0, 0, 0, 0, 0, 0, 0, 0, 0, 0, 0, 0, 0, 0, 0, 0, 0, 0, 1],
     deserialize [0, 0, 0, 0, 0, 0, 0, 0, 0, 0, 0, 0, 0, 0, 0, 0, 0, 0, 0, 0, 0, 0, 0, 0, 0]] =
      malformedReasons.map Except.error ∧
    malformedReasons.Nodup ∧ malformedReasons.length = 10 := by
  exact ⟨rfl, by decide, rfl⟩

/-! ## Type detector (`src/operations.ts`, `detectImageType`) -/

/-- A signature-registry entry: a tag and a byte pattern where `-1` marks a
wildcard position, exactly as in the `imageTypes` table the source imports
from `definitions.ts`. -/
abbrev SignatureEntry := String × List Int

/-- The inner loop of `detectImageType`: compare the pattern against the
first bytes of the buffer, a position matching when the pattern byte is the
wildcard `-1` or equals the buffer byte. -/
def signatureMatches : List Int → List Nat → Bool
  | [], _ => true
  | _ :: _, [] => false
  | s :: srest, b :: brest => (s == -1 || (b : Int) == s) && signatureMatches srest brest

/-- Alias-family stripping of a matched tag: `key.indexOf('_')` followed by
`key.slice(0, index)` keeps the part of the key before the first underscore
(the whole key when there is none). -/
def stripAliasFamily (key : String) : String :=
  String.mk (key.toList.takeWhile (fun c => c != '_'))

/-- Model of `detectImageType`, parameterised by the signature registry that
the source imports as `imageTypes` from `definitions.ts` (a file not present
in the sources): iterate the registry in order, skip entries whose pattern is
longer than the buffer, return the first full match's tag with its alias
family stripped, and `none` when nothing matches. -/
def detectImageType (imageTypes : List SignatureEntry) (buffer : List Nat) : Option String :=
  match imageTypes with
  | [] => none
  | (key, bytes) :: rest =>
    if buffer.length < bytes.length then
      detectImageType rest buffer
    else if signatureMatches bytes buffer then
      some (stripAliasFamily key)
    else
      detectImageType rest buffer

/-- Specification-side matching predicate for one registry entry: the buffer
is at least as long as the pattern and every concrete (non-wildcard) pattern
position equals the corresponding buffer byte. -/
def EntryMatches (entry : SignatureEntry) (buffer : List Nat) : Prop :=
  entry.2.length ≤ buffer.length ∧
    ∀ i : Nat, ∀ h1 : i < entry.2.length, ∀ h2 : i < buffer.length,
      entry.2.get ⟨i, h1⟩ ≠ -1 → (buffer.get ⟨i, h2⟩ : Int) = entry.2.get ⟨i, h1⟩

instance (entry : SignatureEntry) (buffer : List Nat) :
    Decidable (EntryMatches entry buffer) := by
  unfold EntryMatches; infer_instance

/-- The inner comparison loop agrees with the positionwise specification
whenever the buffer is at least as long as the pattern: it succeeds exactly
when every concrete (non-wildcard) pattern position equals the
corresponding buffer byte. -/
theorem signatureMatches_spec (bytes : List Int) (buffer : List Nat)
    (h : bytes.length ≤ buffer.length) :
    signatureMatches bytes buffer = true ↔
      (∀ (i : Nat) (h1 : i < bytes.length) (h2 : i < buffer.length),
        bytes.get ⟨i, h1⟩ ≠ -1 → (buffer.get ⟨i, h2⟩ : Int) = bytes.get ⟨i, h1⟩) := by
  induction bytes generalizing buffer with
  | nil =>
    simp only [signatureMatches]
    constructor
    · intro _ i h1 h2
      exact absurd h1 (by simp)
    · intro _
      trivial
  | cons s srest ih =>
    cases buffer with
    | nil => simp at h
    | cons b brest =>
      have hlen : srest.length ≤ brest.length := by simpa using h
      simp only [signatureMatches, Bool.and_eq_true, Bool.or_eq_true, beq_iff_eq]
      rw [ih brest hlen]
      constructor
      · rintro ⟨hs, hrest⟩ i h1 h2 hne
        cases i with
        | zero =>
          rcases hs with hs | hs
          · exact absurd hs (by simpa using hne)
          · simpa using hs
        | succ j =>
          exact hrest j (by simpa using h1) (by simpa using h2) (by simpa using hne)
      · intro hall
        constructor
        · by_cases hsw : s = -1
          · exact Or.inl hsw
          · right
            have := hall 0 (by simp) (by simp) (by simpa using hsw)
            simpa using this
        · intro i h1 h2 hne
          exact hall (i + 1) (by simpa using h1) (by simpa using h2) (by simpa using hne)

/-- C3: for every registry and buffer, detection returns exactly the first
registry entry (in registration order) whose pattern fits inside the buffer
and matches it at every concrete position — wildcards matching anything —
with the alias family stripped from its tag, and returns the none
classification (no error) when no entry matches. -/
theorem detectImageType_first_match (imageTypes : List SignatureEntry) (buffer : List Nat) :
    detectImageType imageTypes buffer =
      (imageTypes.find? (fun e => decide (EntryMatches e buffer))).map
        (fun e => stripAliasFamily e.1) := by
  induction imageTypes with
  | nil => rfl
  | cons e rest ih =>
    obtain ⟨key, bytes⟩ := e
    unfold detectImageType
    by_cases hlen : buffer.length < bytes.length
    · rw [if_pos hlen]
      have hnE : ¬ EntryMatches (key, bytes) buffer := by
        intro hm
        have hm1 : bytes.length ≤ buffer.length := hm.1
        omega
      have hpa : ¬ (fun e => decide (EntryMatches e buffer)) (key, bytes) = true := by
        simpa using hnE
      rw [@List.find?_cons_of_neg _ (fun e => decide (EntryMatches e buffer)) (key, bytes) rest hpa, ih]
    · rw [if_neg hlen]
      have hle : bytes.length ≤ buffer.length := by omega
      by_cases hmatch : signatureMatches bytes buffer = true
      · rw [if_pos hmatch]
        have hE : EntryMatches (key, bytes) buffer :=
          ⟨hle, (signatureMatches_spec bytes buffer hle).mp hmatch⟩
        have hpa : (fun e => decide (EntryMatches e buffer)) (key, bytes) = true := by
          simpa using hE
        rw [@List.find?_cons_of_pos _ (fun e => decide (EntryMatches e buffer)) (key, bytes) rest hpa]
        rfl
      · rw [if_neg hmatch]
        have hnE : ¬ EntryMatches (key, bytes) buffer := fun hE =>
          hmatch ((signatureMatches_spec bytes buffer hle).mpr hE.2)
        have hpa : ¬ (fun e => decide (EntryMatches e buffer)) (key, bytes) = true := by
          simpa using hnE
        rw [@List.find?_cons_of_neg _ (fun e => decide (EntryMatches e buffer)) (key, bytes) rest hpa, ih]

/-! ## Optimization policy engine (`src/operations.ts`, `optimize`) -/

/-- Modelled from the spec: the `animatableTypes` set imported from the
missing `definitions.ts` — the formats capable of encoding multiple frames
(glossary: "Animatable type"), which for this engine are the multi-frame
raster formats.  The repository's tests exercise `png` membership (an
animated PNG is rejected); `svg` is not a member. -/
def animatableTypes : List String := ["gif", "png", "webp", "avif"]

/-- Modelled from the spec: the `bypassTypes` set imported from the missing
`definitions.ts` — the formats the engine never re-encodes (§4.2 step 4).
Per §4.2 step 3 an allowed SVG is returned unchanged, and the only return
path that does so is the bypass check, so `svg` is a member (the
repository's tests confirm: an allowed SVG round-trips byte-for-byte). -/
def bypassTypes : List String := ["gif", "svg"]

/-- Model of the `ImageError` class of `errors.ts`: a code that is either a
number or a string, a message, and the optional `response` diagnostic
property attached by `fetchAndOptimize`. -/
structure ImageError where
  code : Sum Nat String
  message : String
  response : Option String
deriving DecidableEq, Repr

/-- Format-specific encode parameters passed to the external codec, one
constructor per branch of the format dispatch in `optimize`;
`sharpDefault` models the absence of a format-specific call. -/
inductive EncodeParams where
  | avif (quality : Int) (effort : Int)
  | webp (quality : Int)
  | png (quality : Int)
  | jpeg (quality : Int) (mozjpeg : Bool)
  | sharpDefault
deriving DecidableEq, Repr

/-- The format dispatch of `optimize` (the `if`/`else if` chain choosing the
encoder and its parameters). -/
def encodeParamsFor (upstreamType : String) (quality : Int) : EncodeParams :=
  if upstreamType == "avif" then .avif (max (quality - 20) 1) 3
  else if upstreamType == "webp" then .webp quality
  else if upstreamType == "png" then .png quality
  else if upstreamType == "jpeg" then .jpeg quality true
  else .sharpDefault

/-- The transcode plan handed to the external codec: the input bytes, the
resize bound with enlargement disabled, orientation auto-correction
(`rotate()`), and the format-specific encode parameters.  The actual pixel
work is the external collaborator's. -/
structure TranscodePlan where
  input : List Nat
  width : Int
  withoutEnlargement : Bool
  rotate : Bool
  format : EncodeParams
deriving DecidableEq, Repr

/-- Successful outcome of `optimize`: either the original buffer returned
unchanged, or a transcode delegated to the external codec. -/
inductive BufferOutcome where
  | passthrough (buffer : List Nat)
  | transcode (plan : TranscodePlan)
deriving DecidableEq, Repr

/-- Model of `optimize`, parameterised by the signature registry and by the
external animated-frame detector (`is-animated`), which the source consults
only inside the short-circuiting `animatableTypes.includes(t) && isAnimated(buffer)`
conjunction. -/
def optimize (imageTypes : List SignatureEntry) (isAnimated : List Nat → Bool)
    (buffer : List Nat) (width : Int) (quality : Int) (allowSVG : Bool) :
    Except ImageError BufferOutcome :=
  match detectImageType imageTypes buffer with
  | none => .error ⟨.inl 400, "Invalid input image", none⟩
  | some upstreamType =>
    if animatableTypes.contains upstreamType && isAnimated buffer then
      .error ⟨.inl 400, "Unable to optimize and animated image", none⟩
    else if upstreamType == "svg" && !allowSVG then
      .error ⟨.inl 400, "Optimization of SVG images is not allowed", none⟩
    else if bypassTypes.contains upstreamType then
      .ok (.passthrough buffer)
    else
      .ok (.transcode ⟨buffer, width, true, true, encodeParamsFor upstreamType quality⟩)

/-! ## Fetch-and-optimize (`src/operations.ts`, `fetchAndOptimize`) -/

/-- Model of the upstream HTTP response consumed by `fetchAndOptimize`:
status, status text, headers, body bytes (`arrayBuffer()`), and the body as
text (`text()`, used only for error diagnostics). -/
structure UpstreamResponse where
  status : Nat
  statusText : String
  headers : List (String × String)
  body : List Nat
  bodyText : String

/-- Modelled from the spec and the WHATWG fetch standard: `response.ok` is
true exactly when the status is in the 2xx range. -/
def responseOk (r : UpstreamResponse) : Bool :=
  200 ≤ r.status && r.status ≤ 299

/-- Model of `response.headers.get(name)`: the header's value, or `null`
when the header is not present. -/
def headerGet (headers : List (String × String)) (name : String) : Option String :=
  headers.lookup name

/-- The `Image<Buffer>` value returned by `fetchAndOptimize`: the optimize
outcome plus the two headers copied from the upstream response. -/
structure FetchedImage where
  buffer : BufferOutcome
  contentType : Option String
  cacheControl : Option String
deriving DecidableEq, Repr

/-- Model of `fetchAndOptimize` with the external `fetch` already resolved
to an `UpstreamResponse`: on a non-ok response throw an `ImageError` whose
code is the response's status text, whose message embeds it, and whose
`response` property carries the body text; otherwise optimize the body and
copy the `content-type` and `cache-control` headers verbatim. -/
def fetchAndOptimize (imageTypes : List SignatureEntry) (isAnimated : List Nat → Bool)
    (response : UpstreamResponse) (width : Int) (quality : Int) (allowSVG : Bool) :
    Except ImageError FetchedImage :=
  if !responseOk response then
    .error ⟨.inr response.statusText,
      "Unable to fetch the image. [HTTP " ++ response.statusText ++ "]",
      some response.bodyText⟩
  else
    match optimize imageTypes isAnimated response.body width quality allowSVG with
    | .error e => .error e
    | .ok outcome =>
      .ok ⟨outcome, headerGet response.headers "content-type",
        headerGet response.headers "cache-control"⟩

/-! ### Policy-engine theorems -/

/-- C4: the rejection checks of `optimize` run as a linear chain in a fixed
order — unrecognised input first, then the animated gate (consulted only
for animatable types), then the SVG gate — and the first failing check
determines the error, with no later step running. -/
theorem optimize_rejection_order (imageTypes : List SignatureEntry)
    (isAnimated : List Nat → Bool) (buffer : List Nat) (width quality : Int)
    (allowSVG : Bool) :
    (detectImageType imageTypes buffer = none →
      optimize imageTypes isAnimated buffer width quality allowSVG =
        .error ⟨.inl 400, "Invalid input image", none⟩) ∧
    (∀ t, detectImageType imageTypes buffer = some t →
      animatableTypes.contains t = true → isAnimated buffer = true →
      optimize imageTypes isAnimated buffer width quality allowSVG =
        .error ⟨.inl 400, "Unable to optimize and animated image", none⟩) ∧
    (∀ t, detectImageType imageTypes buffer = some t →
      (animatableTypes.contains t = false ∨ isAnimated buffer = false) →
      t = "svg" → allowSVG = false →
      optimize imageTypes isAnimated buffer width quality allowSVG =
        .error ⟨.inl 400, "Optimization of SVG images is not allowed", none⟩) ∧
    (∀ isAnimated2 : List Nat → Bool,
      (∀ t, detectImageType imageTypes buffer = some t →
        animatableTypes.contains t = false) →
      optimize imageTypes isAnimated buffer width quality allowSVG =
        optimize imageTypes isAnimated2 buffer width quality allowSVG) := by
  refine ⟨fun hdet => ?_, fun t hdet hanim hisan => ?_,
    fun t hdet hgate hsvg hallow => ?_, fun isAnimated2 hnoanim => ?_⟩
  · unfold optimize
    rw [hdet]
  · unfold optimize
    rw [hdet]
    simp only []
    rw [if_pos (by rw [hanim, hisan]; rfl)]
  · subst hsvg
    subst hallow
    unfold optimize
    rw [hdet]
    simp only []
    rw [if_neg (by
      rw [show animatableTypes.contains "svg" = false from rfl, Bool.false_and]
      exact Bool.false_ne_true)]
    rw [if_pos (by rfl)]
  · unfold optimize
    cases hdet : detectImageType imageTypes buffer with
    | none => rfl
    | some t =>
      simp only []
      rw [hnoanim t hdet, Bool.false_and, Bool.false_and]

/-- Witness for C4: an animated PNG is rejected with the animated-image
error. -/
theorem optimize_rejection_order_witness :
    optimize [("png", [137])] (fun _ => true) [137] 100 80 true =
      .error ⟨.inl 400, "Unable to optimize and animated image", none⟩ :=
  (optimize_rejection_order [("png", [137])] (fun _ => true) [137] 100 80 true).2.1
    "png" (by decide) rfl rfl

/-- C5: the format-specific encode parameters at the transcode step — AVIF
encodes with the requested quality reduced by 20 and floored at 1, with
effort 3 (reduced from the codec's default); WebP passes the quality through
unchanged; JPEG passes it through unchanged with the mozjpeg variant
selected; PNG hands the same number to the PNG codec, where it is a
compression-effort-style parameter rather than a lossy-quality knob. -/
theorem optimize_transcode_params (imageTypes : List SignatureEntry)
    (isAnimated : List Nat → Bool) (buffer : List Nat) (width quality : Int)
    (allowSVG : Bool) :
    (detectImageType imageTypes buffer = some "avif" →
      ∀ plan, optimize imageTypes isAnimated buffer width quality allowSVG =
        .ok (.transcode plan) → plan.format = .avif (max (quality - 20) 1) 3) ∧
    (detectImageType imageTypes buffer = some "webp" →
      ∀ plan, optimize imageTypes isAnimated buffer width quality allowSVG =
        .ok (.transcode plan) → plan.format = .webp quality) ∧
    (detectImageType imageTypes buffer = some "png" →
      ∀ plan, optimize imageTypes isAnimated buffer width quality allowSVG =
        .ok (.transcode plan) → plan.format = .png quality) ∧
    (detectImageType imageTypes buffer = some "jpeg" →
      ∀ plan, optimize imageTypes isAnimated buffer width quality allowSVG =
        .ok (.transcode plan) → plan.format = .jpeg quality true) := by
  refine ⟨fun hdet plan h => ?_, fun hdet plan h => ?_, fun hdet plan h => ?_,
    fun hdet plan h => ?_⟩ <;>
  · unfold optimize at h
    rw [hdet] at h
    simp only [] at h
    split at h
    · exact Except.noConfusion h
    · split at h
      · exact Except.noConfusion h
      · split at h
        · injection h with h2
          exact BufferOutcome.noConfusion h2
        · simp only [Except.ok.injEq, BufferOutcome.transcode.injEq] at h
          subst h
          rfl

/-- Witness for C5 at a concrete WebP-classified buffer: the plan passes the
requested quality through. -/
theorem optimize_transcode_params_witness :
    TranscodePlan.format ⟨[82], 100, true, true, .webp 80⟩ = .webp 80 :=
  (optimize_transcode_params [("webp", [82])] (fun _ => false) [82] 100 80 false).2.1
    rfl ⟨[82], 100, true, true, .webp 80⟩ rfl

/-- Lookup of a header that is not present yields `none`. -/
theorem headerGet_eq_none (headers : List (String × String)) (name : String)
    (h : ∀ v, (name, v) ∉ headers) : headerGet headers name = none := by
  induction headers with
  | nil => rfl
  | cons p rest ih =>
    obtain ⟨k, v⟩ := p
    by_cases hk : (name == k) = true
    · exact absurd (by rw [eq_of_beq hk]; exact List.mem_cons_self _ _) (h v)
    · have hk' : (name == k) = false := by
        cases hv : name == k
        · rfl
        · exact absurd hv hk
      unfold headerGet List.lookup
      rw [hk']
      exact ih fun w hw => h w (List.mem_cons_of_mem _ hw)

/-- C6: on a non-2xx upstream response, `fetchAndOptimize` fails with the
upstream-fetch error carrying the response's status text and body text as
diagnostic context; on a 2xx response it optimizes the body — propagating
any optimize error — and copies the `content-type` and `cache-control`
headers verbatim into the result, each `none` exactly when the header was
absent, never defaulted. -/
theorem fetchAndOptimize_contract (imageTypes : List SignatureEntry)
    (isAnimated : List Nat → Bool) (response : UpstreamResponse)
    (width quality : Int) (allowSVG : Bool) :
    (¬(200 ≤ response.status ∧ response.status ≤ 299) →
      fetchAndOptimize imageTypes isAnimated response width quality allowSVG =
        .error ⟨.inr response.statusText,
          "Unable to fetch the image. [HTTP " ++ response.statusText ++ "]",
          some response.bodyText⟩) ∧
    (200 ≤ response.status → response.status ≤ 299 →
      (∀ e, optimize imageTypes isAnimated response.body width quality allowSVG =
          .error e →
        fetchAndOptimize imageTypes isAnimated response width quality allowSVG =
          .error e) ∧
      (∀ outcome, optimize imageTypes isAnimated response.body width quality allowSVG =
          .ok outcome →
        fetchAndOptimize imageTypes isAnimated response width quality allowSVG =
          .ok ⟨outcome, headerGet response.headers "content-type",
            headerGet response.headers "cache-control"⟩)) ∧
    (∀ name, (∀ v, (name, v) ∉ response.headers) →
      headerGet response.headers name = none) := by
  refine ⟨fun hbad => ?_, fun hlo hhi => ⟨fun e he => ?_, fun outcome ho => ?_⟩,
    fun name h => headerGet_eq_none response.headers name h⟩
  · have hok : responseOk response = false := by
      unfold responseOk
      rcases Decidable.not_and_iff_or_not.mp hbad with hb | hb <;> simp [hb]
    unfold fetchAndOptimize
    rw [hok]
    rfl
  · have hok : responseOk response = true := by
      unfold responseOk
      simp [hlo, hhi]
    unfold fetchAndOptimize
    rw [hok]
    simp only [Bool.not_true]
    rw [if_neg (by simp)]
    rw [he]
  · have hok : responseOk response = true := by
      unfold responseOk
      simp [hlo, hhi]
    unfold fetchAndOptimize
    rw [hok]
    simp only [Bool.not_true]
    rw [if_neg (by simp)]
    rw [ho]

/-- Witness for C6 at a concrete 404 response. -/
theorem fetchAndOptimize_contract_witness :
    fetchAndOptimize [] (fun _ => false) ⟨404, "Not Found", [], [], "upstream body"⟩
        100 80 false =
      .error ⟨.inr "Not Found", "Unable to fetch the image. [HTTP Not Found]",
        some "upstream body"⟩ :=
  (fetchAndOptimize_contract [] (fun _ => false)
    ⟨404, "Not Found", [], [], "upstream body"⟩ 100 80 false).1 (by decide)

/-- Counterexample for C7 as stated: a buffer detected as `svg` — a member
of the bypass set — passes the animated gate (the detector reports false),
yet with `allowSVG = false` the engine raises the SVG error instead of
returning the buffer unchanged. -/
theorem optimize_bypass_counterexample :
    detectImageType [("svg", [60])] [60] = some "svg" ∧
    bypassTypes.contains "svg" = true ∧
    optimize [("svg", [60])] (fun _ => false) [60] 100 80 false =
      .error ⟨.inl 400, "Optimization of SVG images is not allowed", none⟩ ∧
    optimize [("svg", [60])] (fun _ => false) [60] 100 80 false ≠
      .ok (.passthrough [60]) := by
  refine ⟨by decide, rfl, rfl, fun hc => ?_⟩
  rw [show optimize [("svg", [60])] (fun _ => false) [60] 100 80 false =
    .error ⟨.inl 400, "Optimization of SVG images is not allowed", none⟩ from rfl] at hc
  exact Except.noConfusion hc

/-- Amended C7: an SVG-detected buffer with `allowSVG = true` is returned
unchanged byte-for-byte, and a buffer whose detected type is in the bypass
set is returned unchanged after passing both the animated gate and the SVG
gate (`allowSVG` when the detected type is SVG); no transcoding is
attempted in either case. -/
theorem optimize_passthrough (imageTypes : List SignatureEntry)
    (isAnimated : List Nat → Bool) (buffer : List Nat) (width quality : Int)
    (allowSVG : Bool) :
    (detectImageType imageTypes buffer = some "svg" → allowSVG = true →
      optimize imageTypes isAnimated buffer width quality allowSVG =
        .ok (.passthrough buffer)) ∧
    (∀ t, detectImageType imageTypes buffer = some t →
      bypassTypes.contains t = true →
      (animatableTypes.contains t = true → isAnimated buffer = false) →
      (t = "svg" → allowSVG = true) →
      optimize imageTypes isAnimated buffer width quality allowSVG =
        .ok (.passthrough buffer)) := by
  constructor
  · intro hdet hallow
    subst hallow
    unfold optimize
    rw [hdet]
    simp only []
    rw [if_neg (by
      rw [show animatableTypes.contains "svg" = false from rfl, Bool.false_and]
      exact Bool.false_ne_true)]
    rw [if_neg (by decide)]
    rw [if_pos (by rfl)]
  · intro t hdet hbypass han hsvggate
    unfold optimize
    rw [hdet]
    simp only []
    have hcond1 : (animatableTypes.contains t && isAnimated buffer) = false := by
      cases hc : animatableTypes.contains t
      · rw [Bool.false_and]
      · rw [Bool.true_and]
        exact han hc
    rw [if_neg (by rw [hcond1]; simp)]
    have hcond2 : (t == "svg" && !allowSVG) = false := by
      by_cases ht : t = "svg"
      · rw [hsvggate ht]
        simp
      · have : (t == "svg") = false := by
          cases hv : t == "svg"
          · rfl
          · exact absurd (eq_of_beq hv) ht
        rw [this, Bool.false_and]
    rw [if_neg (by rw [hcond2]; simp)]
    rw [if_pos hbypass]

/-- Witness for the amended C7: a GIF-classified buffer (a bypass type,
animatable but not animated) is returned unchanged. -/
theorem optimize_passthrough_witness :
    optimize [("gif", [71])] (fun _ => false) [71] 100 80 false =
      .ok (.passthrough [71]) :=
  (optimize_passthrough [("gif", [71])] (fun _ => false) [71] 100 80 false).2
    "gif" (by decide) rfl (fun _ => rfl) (by decide)

end ImageOptimizer
